import Mathlib

/-!
Shallow embedding of the dialog-control state machines of the
ask-sdk-controls repository: the `MultiValueListControl` and the
`QuestionnaireControl`, together with the generic handler-dispatch logic.

Conventions of the embedding:
* TypeScript `undefined`-able fields become `Option`.
* Ordered in-place mutation of arrays becomes explicit state passing over
  `List`; `Array.prototype.splice(i, 1)` becomes `List.eraseIdx`.
* Runtime exceptions (including `TypeError`s raised by dereferencing an
  `undefined` value behind a TypeScript non-null assertion) become
  `Except.error`.
* Result Acts are modelled as a tagged sum carrying the business payload
  fields; payload fields that exist purely for prompt rendering
  (renderedValue, renderedChoicesFromActivePage, ...) are omitted, since
  rendering is external to the state machine.
* Pluggable props (validation functions, boolean-or-function props) are
  modelled by their per-turn evaluated values.
-/

namespace AskSdkControls

/-! ### Built-in string constants (constants/Strings.ts) -/

def actionAdd : String := "builtin_add"

def actionRemove : String := "builtin_remove"

def actionClear : String := "builtin_clear"

/-! ### MultiValueListControl: data model -/

/-- One held value: a slot-value id plus its entity-resolution-match flag
(MultiValueListControl.ts, `MultiValueListStateValue`). -/
structure MultiValueListStateValue where
  id : String
  erMatch : Bool
deriving DecidableEq, Repr

/-- The most recent proactive act of the control
(MultiValueListControl.ts, `LastInitiativeState`). -/
structure LastInitiativeState where
  actName : String
  valueId : List String
deriving DecidableEq, Repr

/-- State tracked by a MultiValueListControl
(MultiValueListControl.ts, `MultiValueListControlState`).
A fresh state has every field `undefined`. -/
structure MultiValueListControlState where
  value : Option (List MultiValueListStateValue) := none
  elicitationAction : Option String := none
  spokenItemsPageIndex : Option Nat := none
  previousValue : Option (List String) := none
  lastInitiative : Option LastInitiativeState := none
  confirmed : Option Bool := none
deriving DecidableEq, Repr

/-- The state a `new MultiValueListControlState()` produces. -/
def mvFreshState : MultiValueListControlState := {}

/-- Structured failure returned by a validation function
(MultiValueListControl.ts, `MultiValueValidationResult`). -/
structure MultiValueValidationResult where
  reasonCode : Option String := none
  renderedReason : String
  invalidValues : List String
deriving DecidableEq, Repr

/-- Per-turn evaluated props of a MultiValueListControl.  `required` and
`confirmationRequired` are the values of `evaluateBooleanProp` for this
turn; `validation` is the normalised list of validation functions
(a single function prop becomes a one-element list, as in `validate`). -/
structure MVProps where
  required : Bool
  confirmationRequired : Bool
  pageSize : Nat
  listItemIDs : List String
  validation : List (List MultiValueListStateValue → Option MultiValueValidationResult)

/-- Result Acts a MultiValueListControl can emit (ContentActs.ts and
InitiativeActs.ts), restricted to the business payload. -/
inductive MVAct where
  | valueAdded (valueIds : List String)
  | invalidValue (values : List String) (renderedReason : Option String)
  | valueRemoved (valueIds : List String)
  | valueCleared (valueIds : List String)
  | valueConfirmed (valueIds : List String)
  | confirmValue (valueIds : List String)
  | suggestAction
  | requestValueByList (choicesFromActivePage : List String) (allChoices : List String)
  | requestRemovedValueByList (availableChoicesFromActivePage : List String)
      (availableChoices : List String)
deriving DecidableEq, Repr

/-- Which acts are InitiativeActs (systemActs/InitiativeActs.ts); used by
`resultBuilder.hasInitiativeAct()`. -/
def MVAct.isInitiativeAct : MVAct → Bool
  | .confirmValue _ => true
  | .suggestAction => true
  | .requestValueByList _ _ => true
  | .requestRemovedValueByList _ _ => true
  | _ => false

/-- The class-name string stored in `lastInitiative.actName`
(`ConfirmValueAct.name` in the source). -/
def confirmValueActName : String := "ConfirmValueAct"

/-! ### MultiValueListControl: helpers -/

/-- `getSlotIds` (MultiValueListControl.ts): `this.state.value!.map(id)`.
The non-null assertion makes this a runtime TypeError when `value` is
`undefined`. -/
def getSlotIds (s : MultiValueListControlState) : Except String (List String) :=
  match s.value with
  | none => .error "TypeError: this.state.value is undefined"
  | some v => .ok (v.map (·.id))

/-- `getPageIndex` (MultiValueListControl.ts): reads the page cursor,
first initialising it to 0 when it is `undefined`. -/
def getPageIndex (s : MultiValueListControlState) : Nat × MultiValueListControlState :=
  match s.spokenItemsPageIndex with
  | none => (0, { s with spokenItemsPageIndex := some 0 })
  | some i => (i, s)

/-- `getChoicesFromActivePage` (MultiValueListControl.ts):
`allChoices.slice(start, start + pageSize)`. -/
def getChoicesFromActivePage (pageSize : Nat) (s : MultiValueListControlState)
    (allChoices : List String) : List String × MultiValueListControlState :=
  let (start, s1) := getPageIndex s
  ((allChoices.drop start).take pageSize, s1)

/-- `addValue` (MultiValueListControl.ts): push onto the list, creating it
if absent. -/
def addValue (s : MultiValueListControlState) (v : MultiValueListStateValue) :
    MultiValueListControlState :=
  match s.value with
  | some existing => { s with value := some (existing ++ [v]) }
  | none => { s with value := some [v] }

/-- `askElicitationQuestion` (MultiValueListControl.ts): records the
elicitation action and emits the list-request act for the add or remove
capability. -/
def askElicitationQuestion (props : MVProps) (s : MultiValueListControlState)
    (elicitationAction : String) :
    Except String (MultiValueListControlState × List MVAct) :=
  let s1 := { s with elicitationAction := some elicitationAction }
  let allChoices := props.listItemIDs
  if elicitationAction = actionAdd then
    let (page, s2) := getChoicesFromActivePage props.pageSize s1 allChoices
    .ok (s2, [.requestValueByList page allChoices])
  else if elicitationAction = actionRemove then
    match getSlotIds s1 with
    | .error e => .error e
    | .ok availableChoices =>
      let (page, s2) := getChoicesFromActivePage props.pageSize s1 availableChoices
      .ok (s2, [.requestRemovedValueByList page availableChoices])
  else .error "Unhandled. Unknown elicitationAction"

/-! ### MultiValueListControl: handlers -/

/-- `validate` (MultiValueListControl.ts): run the validation functions in
order and return the first structured failure, if any. -/
def validate (fns : List (List MultiValueListStateValue → Option MultiValueValidationResult))
    (values : List MultiValueListStateValue) : Option MultiValueValidationResult :=
  match fns with
  | [] => none
  | f :: rest =>
    match f values with
    | some r => some r
    | none => validate rest values

/-- `handleAddWithValue` (MultiValueListControl.ts): validate the proposed
values, append the ones not named invalid, then emit a ValueAddedAct when
at least one was kept and an InvalidValueAct when validation failed. -/
def handleAddWithValue (props : MVProps) (proposed : List MultiValueListStateValue)
    (s : MultiValueListControlState) : MultiValueListControlState × List MVAct :=
  let validationResult := validate props.validation proposed
  let values :=
    match validationResult with
    | none => proposed
    | some r => proposed.filter (fun v => ! r.invalidValues.contains v.id)
  let valueIds := values.map (·.id)
  let s1 := values.foldl addValue s
  let addedActs : List MVAct := if valueIds.isEmpty then [] else [.valueAdded valueIds]
  let invalidActs : List MVAct :=
    match validationResult with
    | none => []
    | some r => [.invalidValue r.invalidValues (some r.renderedReason)]
  (s1, addedActs ++ invalidActs)

/-- The loop body of `handleRemoveWithValue`: walk the requested ids in
order against the progressively spliced state values, stopping at the
first id with no identity match.  Returns the remaining state values, the
ids deleted so far, and the first id that was not found (if any). -/
def removeLoop : List MultiValueListStateValue → List String →
    List MultiValueListStateValue × List String × Option String
  | stateValues, [] => (stateValues, [], none)
  | stateValues, v :: rest =>
    match stateValues.findIdx? (fun x => x.id = v) with
    | none => (stateValues, [], some v)
    | some removeIndex =>
      let stateValues1 := stateValues.eraseIdx removeIndex
      let (finalValues, deleted, firstMiss) := removeLoop stateValues1 rest
      (finalValues, v :: deleted, firstMiss)

/-- `handleRemoveWithValue` (MultiValueListControl.ts).  Note
`this.state.value!`: when no value list exists and at least one removal is
requested, the first loop iteration raises a TypeError. -/
def handleRemoveWithValue (props : MVProps) (valueIds : List String)
    (s : MultiValueListControlState) :
    Except String (MultiValueListControlState × List MVAct) :=
  match s.value with
  | none =>
    match valueIds with
    | [] => .ok (s, [.valueRemoved []])
    | _ :: _ => .error "TypeError: cannot read map of undefined state.value"
  | some stateValues =>
    let (stateValues1, deleted, firstMiss) := removeLoop stateValues valueIds
    let s1 := { s with value := some stateValues1 }
    match firstMiss with
    | some v =>
      match askElicitationQuestion props s1 actionRemove with
      | .error e => .error e
      | .ok (s2, elicitActs) => .ok (s2, .invalidValue [v] none :: elicitActs)
    | none => .ok (s1, [.valueRemoved deleted])

/-- `handleClearValue` (MultiValueListControl.ts): read the held ids
(through `state.value!`), reset the state, and report what was cleared. -/
def handleClearValue (s : MultiValueListControlState) :
    Except String (MultiValueListControlState × List MVAct) :=
  match getSlotIds s with
  | .error e => .error e
  | .ok valueIds => .ok (mvFreshState, [.valueCleared valueIds])

/-- Guard fragment of `isConfirmationAffirmed` / `isConfirmationDisaffirmed`
that inspects control state: `InputUtil.lastInitiativeMatch` against
`ConfirmValueAct.name` (the input must additionally be a bare yes / no). -/
def lastInitiativeMatch (li : Option LastInitiativeState) (actName : String) : Bool :=
  match li with
  | some l => l.actName = actName
  | none => false

/-- `handleConfirmationAffirmed` (MultiValueListControl.ts): clear
`lastInitiative`, set `confirmed`, and report the confirmed ids
(`lastInitiative!` is a TypeError when the marker is absent). -/
def handleConfirmationAffirmed (s : MultiValueListControlState) :
    Except String (MultiValueListControlState × List MVAct) :=
  match s.lastInitiative with
  | none => .error "TypeError: this.state.lastInitiative is undefined"
  | some li =>
    .ok ({ s with lastInitiative := none, confirmed := some true },
      [.valueConfirmed li.valueId])

/-- `handleConfirmationDisaffirmed` (MultiValueListControl.ts): emit a
SuggestActionAct and discard `lastInitiative` (the `confirmed` field is
left untouched). -/
def handleConfirmationDisaffirmed (s : MultiValueListControlState) :
    MultiValueListControlState × List MVAct :=
  ({ s with lastInitiative := none }, [.suggestAction])

/-! ### MultiValueListControl: initiative phase -/

/-- `wantsToConfirmValue` (MultiValueListControl.ts). -/
def wantsToConfirmValue (props : MVProps) (s : MultiValueListControlState) : Bool :=
  props.confirmationRequired
    && (match s.value with
        | some v => ¬ v.isEmpty
        | none => false)
    && ¬ (s.confirmed = some true)

/-- `confirmValue` (MultiValueListControl.ts): record the confirmation
request as `lastInitiative` and emit a ConfirmValueAct over the held ids. -/
def confirmValue (s : MultiValueListControlState) :
    Except String (MultiValueListControlState × List MVAct) :=
  match getSlotIds s with
  | .error e => .error e
  | .ok value =>
    .ok ({ s with lastInitiative := some ⟨confirmValueActName, value⟩ },
      [.confirmValue value])

/-- `wantsToElicitValue` (MultiValueListControl.ts): fires only when
`state.value === undefined` (a present-but-empty list does not count)
and the control is required. -/
def wantsToElicitValue (props : MVProps) (s : MultiValueListControlState) : Bool :=
  s.value.isNone && props.required

/-- `elicitValue` (MultiValueListControl.ts). -/
def elicitValue (props : MVProps) (s : MultiValueListControlState) :
    Except String (MultiValueListControlState × List MVAct) :=
  askElicitationQuestion props s actionAdd

/-- Which initiative handler `canTakeInitiative` selects (the source sets
`this.initiativeFunc` as a side effect of the short-circuiting
`wantsToConfirmValue(input) || wantsToElicitValue(input)`). -/
inductive MVInitiativeChoice where
  | confirm
  | elicit
deriving DecidableEq, Repr

/-- `canTakeInitiative` (MultiValueListControl.ts), combined with the
initiative-function selection it performs. -/
def canTakeInitiative (props : MVProps) (s : MultiValueListControlState) :
    Option MVInitiativeChoice :=
  if wantsToConfirmValue props s then some .confirm
  else if wantsToElicitValue props s then some .elicit
  else none

/-- `takeInitiative` (MultiValueListControl.ts) combined with
`canTakeInitiative`: `none` when no initiative handler wants to fire. -/
def runInitiative (props : MVProps) (s : MultiValueListControlState) :
    Option (Except String (MultiValueListControlState × List MVAct)) :=
  match canTakeInitiative props s with
  | some .confirm => some (confirmValue s)
  | some .elicit => some (elicitValue props s)
  | none => none

/-! ### MultiValueListControl: handle wrapper -/

/-- The handler that `canHandle` matched, together with the data it
unpacks from the structured intent. -/
inductive MVInvocation where
  | addWithValue (proposed : List MultiValueListStateValue)
  | removeWithValue (valueIds : List String)
  | clearValue
  | confirmationAffirmed
  | confirmationDisaffirmed

/-- Dispatch to the matched handler (the bodies of the five
`handleFunc` candidates of MultiValueListControl.ts). -/
def executeMVHandler (props : MVProps) (inv : MVInvocation)
    (s : MultiValueListControlState) :
    Except String (MultiValueListControlState × List MVAct) :=
  match inv with
  | .addWithValue proposed => .ok (handleAddWithValue props proposed s)
  | .removeWithValue valueIds => handleRemoveWithValue props valueIds s
  | .clearValue => handleClearValue s
  | .confirmationAffirmed => handleConfirmationAffirmed s
  | .confirmationDisaffirmed => .ok (handleConfirmationDisaffirmed s)

/-- `MultiValueListControl.handle`: overwrite `props.required` with
`true`, run the matched handler, then run the initiative phase when the
handler produced no initiative act.  The returned `MVProps` reflect the
in-place props mutation. -/
def mvHandle (props : MVProps) (inv : MVInvocation) (s : MultiValueListControlState) :
    Except String (MVProps × MultiValueListControlState × List MVAct) :=
  match executeMVHandler { props with required := true } inv s with
  | .error e => .error e
  | .ok (s1, acts) =>
    if acts.any MVAct.isInitiativeAct then .ok ({ props with required := true }, s1, acts)
    else
      match runInitiative { props with required := true } s1 with
      | none => .ok ({ props with required := true }, s1, acts)
      | some (.error e) => .error e
      | some (.ok (s2, initiativeActs)) =>
        .ok ({ props with required := true }, s2, acts ++ initiativeActs)

/-! ### QuestionnaireControl: data model -/

/-- A questionnaire question (QuestionnaireControlStructs.ts, `Question`). -/
structure Question where
  id : String
  targets : List String
  prompt : String
  promptShortForm : String
deriving DecidableEq, Repr

/-- A questionnaire choice (QuestionnaireControlStructs.ts, `Choice`);
optional display fields are omitted as rendering-only. -/
structure Choice where
  id : String
  aplColumnHeader : String
  prompt : String
deriving DecidableEq, Repr

/-- Content of the questionnaire
(QuestionnaireControlStructs.ts, `QuestionnaireContent`). -/
structure QuestionnaireContent where
  questions : List Question
  choices : List Choice
deriving DecidableEq, Repr

/-- The answers map (`QuestionnaireUserAnswers`): questionId to choiceId,
one entry per answered question, modelled as an association list with
unique keys in insertion order. -/
def QuestionnaireUserAnswers := List (String × String)

instance : DecidableEq QuestionnaireUserAnswers :=
  inferInstanceAs (DecidableEq (List (String × String)))

/-- State tracked by a QuestionnaireControl
(QuestionnaireControl.ts, `QuestionnaireControlState`). -/
structure QuestionnaireControlState where
  value : QuestionnaireUserAnswers := []
  activeInitiative : Option String := none
  focusQuestionId : Option String := none
  isExplicitlyCompleted : Bool := false
  requireExplicitCompletion : Bool := false
  explicitlyActivated : Bool := false
deriving DecidableEq

/-- The state a freshly-constructed QuestionnaireControl holds
(`new QuestionnaireControlState()` followed by `this.state.value = ...`
with an empty map in the constructor). -/
def qFreshState : QuestionnaireControlState := {}

/-- Structured failure of the `valid` prop
(payload shape of `QuestionnaireCompletionRejectedAct`). -/
structure QValidationFailure where
  reasonCode : Option String := none
  renderedReason : Option String := none
deriving DecidableEq, Repr

/-- Acts a QuestionnaireControl can emit
(QuestionnaireControlSystemActs.ts and InitiativeActs.ts), restricted to
the business payload (rendering-only fields omitted). -/
inductive QAct where
  | askQuestion (questionId : String)
  | activeAPLInitiative
  | askIfComplete
  | suggestContinue
  | questionAnswered (questionId : String) (choiceId : String)
      (userAnsweredWithExplicitValue : Bool) (userMentionedQuestion : Bool)
  | completed
  | completionRejected (reasonCode : Option String) (renderedReason : Option String)
  | acknowledgeNotComplete
deriving DecidableEq, Repr

/-- Class-name string of `AskQuestionAct` as stored in
`state.activeInitiative.actName`. -/
def askQuestionActName : String := "AskQuestionAct"

/-- Class-name string of `ActiveAPLInitiative` (imported under the alias
`ActiveAPLInitiativeAct`; `constructor.name` is the original class name). -/
def activeAPLInitiativeActName : String := "ActiveAPLInitiative"

/-- Class-name string of `AskIfCompleteAct`. -/
def askIfCompleteActName : String := "AskIfCompleteAct"

/-- Class-name string of `SuggestContinueAct`. -/
def suggestContinueActName : String := "SuggestContinueAct"

/-! ### QuestionnaireControl: answers-map helpers -/

/-- Read the answer for a question id (`this.state.value[questionId]`). -/
def lookupAnswer (value : QuestionnaireUserAnswers) (questionId : String) :
    Option String :=
  (value.find? (fun p => p.1 = questionId)).map (·.2)

/-- Set or overwrite the answer for a question id
(`this.state.value[questionId] = ...`; JS object assignment keeps the
insertion position of an existing key). -/
def setAnswer (value : QuestionnaireUserAnswers) (questionId choiceId : String) :
    QuestionnaireUserAnswers :=
  match value with
  | [] => [(questionId, choiceId)]
  | (q, c) :: rest =>
    if q = questionId then (questionId, choiceId) :: rest
    else (q, c) :: setAnswer rest questionId choiceId

/-- `updateAnswer` (QuestionnaireControl.ts): set the answer, or delete
the entry when the choice id is `undefined`. -/
def updateAnswer (value : QuestionnaireUserAnswers) (questionId : String)
    (choiceId : Option String) : QuestionnaireUserAnswers :=
  match choiceId with
  | some c => setAnswer value questionId c
  | none => value.filter (fun p => p.1 ≠ questionId)

/-- `getChoiceIndexById` (QuestionnaireControl.ts). -/
def getChoiceIndexById (content : QuestionnaireContent) (answerId : String) :
    Option Nat :=
  content.choices.findIdx? (fun choice => choice.id = answerId)

/-- `getQuestionIndexById` (QuestionnaireControl.ts) before its
assertion: `none` models the failing `assert(idx >= 0)`. -/
def getQuestionIndexById (content : QuestionnaireContent) (questionId : String) :
    Option Nat :=
  content.questions.findIdx? (fun question => question.id = questionId)

/-- `getFirstUnansweredQuestion` (QuestionnaireControl.ts). -/
def getFirstUnansweredQuestion (content : QuestionnaireContent)
    (s : QuestionnaireControlState) : Option Question :=
  content.questions.find? (fun q => (lookupAnswer s.value q.id).isNone)

/-- All questions are answered (equivalent to
`getFirstUnansweredQuestion === undefined`, see
`getFirstUnansweredQuestion_isNone`). -/
def allQuestionsAnswered (content : QuestionnaireContent)
    (s : QuestionnaireControlState) : Bool :=
  content.questions.all (fun q => (lookupAnswer s.value q.id).isSome)

/-! ### QuestionnaireControl: handlers -/

/-- The builtin handler that `canHandle` matched, together with the data
it extracts from the input (the intent fields and, for answer handlers,
the resolved value).  Guard conditions that inspect only the input are
encoded by the choice of constructor. -/
inductive QInvocation where
  | activate
  | bareAnswerToAskedQuestion (mappedValue : String)
  | specificAnswerToAskedQuestion (valueStr : String)
  | specificAnswerToSpecificQuestion (target : String) (valueStr : String)
  | feedbackAnswerToSpecificQuestion (target : String) (feedback : String)
  | specificAnswerByTouch (questionId : String) (choiceIndex : Int)
  | completionRequestByVoice
  | completionRequestByTouch
  | bareYesToCompletionQuestion
  | bareNoToCompletionQuestion
deriving DecidableEq, Repr

/-- The three invocations that are routed to `handleCompletionRequest`
(explicit complete by voice, by touch, or a bare yes to the completion
question). -/
def QInvocation.isCompletionRequest : QInvocation → Bool
  | .completionRequestByVoice => true
  | .completionRequestByTouch => true
  | .bareYesToCompletionQuestion => true
  | _ => false

/-- `handleActivate` (QuestionnaireControl.ts). -/
def handleActivate (s : QuestionnaireControlState) :
    QuestionnaireControlState × List QAct :=
  ({ s with explicitlyActivated := true, isExplicitlyCompleted := false }, [])

/-- `handleBareAnswerToAskedQuestion` (QuestionnaireControl.ts): answer
the focus question with the intent-mapped choice id.  Failed lookups
model the `assert` calls / non-null dereferences. -/
def handleBareAnswerToAskedQuestion (content : QuestionnaireContent)
    (mappedValue : String) (s : QuestionnaireControlState) :
    Except String (QuestionnaireControlState × List QAct) :=
  match s.focusQuestionId with
  | none => .error "Question not found. id=undefined"
  | some focusId =>
    match content.questions.find? (fun x => x.id = focusId) with
    | none => .error "Question not found"
    | some question =>
      match getChoiceIndexById content mappedValue with
      | none => .error "assertion failed: choiceIndex is undefined"
      | some _ =>
        .ok ({ s with value := updateAnswer s.value question.id (some mappedValue),
                      isExplicitlyCompleted := false },
          [.questionAnswered question.id mappedValue false false])

/-- `handleSpecificAnswerToAskedQuestion` (QuestionnaireControl.ts):
accept the answer only when it matches a listed choice, otherwise the
source reaches `throw new Error` (a to-do path). -/
def handleSpecificAnswerToAskedQuestion (content : QuestionnaireContent)
    (valueStr : String) (s : QuestionnaireControlState) :
    Except String (QuestionnaireControlState × List QAct) :=
  match s.focusQuestionId with
  | none => .error "Question not found. id=undefined"
  | some focusId =>
    match content.questions.find? (fun x => x.id = focusId) with
    | none => .error "Question not found"
    | some question =>
      if content.choices.any (fun choice => choice.id = valueStr) then
        .ok ({ s with value := updateAnswer s.value question.id (some valueStr),
                      isExplicitlyCompleted := false },
          [.questionAnswered question.id valueStr true false])
      else .error "todo"

/-- `handleSpecificAnswerToSpecificQuestion` (QuestionnaireControl.ts):
answer the question whose registered targets include the mentioned
target, regardless of focus. -/
def handleSpecificAnswerToSpecificQuestion (content : QuestionnaireContent)
    (target valueStr : String) (s : QuestionnaireControlState) :
    Except String (QuestionnaireControlState × List QAct) :=
  match getChoiceIndexById content valueStr with
  | none => .error "assertion failed: choiceIndex is undefined"
  | some _ =>
    match content.questions.find? (fun q => q.targets.contains target) with
    | none => .error "assertion failed: targetedQuestion is undefined"
    | some targetedQuestion =>
      .ok ({ s with value := updateAnswer s.value targetedQuestion.id (some valueStr),
                    isExplicitlyCompleted := false },
        [.questionAnswered targetedQuestion.id valueStr true true])

/-- `handleFeedbackAnswerToSpecificQuestion` (QuestionnaireControl.ts):
the answer arrives in the `feedback` field. -/
def handleFeedbackAnswerToSpecificQuestion (content : QuestionnaireContent)
    (target feedback : String) (s : QuestionnaireControlState) :
    Except String (QuestionnaireControlState × List QAct) :=
  match getChoiceIndexById content feedback with
  | none => .error "assertion failed: choiceIndex is undefined"
  | some _ =>
    match content.questions.find? (fun q => q.targets.contains target) with
    | none => .error "assertion failed: targetedQuestion is undefined"
    | some targetedQuestion =>
      .ok ({ s with value := updateAnswer s.value targetedQuestion.id (some feedback),
                    isExplicitlyCompleted := false },
        [.questionAnswered targetedQuestion.id feedback true true])

/-- `handleSpecificAnswerByTouch` (QuestionnaireControl.ts): payload
`(questionId, choiceIndex)` with −1 the clear sentinel; no spoken act. -/
def handleSpecificAnswerByTouch (content : QuestionnaireContent)
    (questionId : String) (choiceIndex : Int) (s : QuestionnaireControlState) :
    Except String (QuestionnaireControlState × List QAct) :=
  match getQuestionIndexById content questionId with
  | none => .error "Not found. questionId"
  | some _ =>
    if choiceIndex = -1 then
      .ok ({ s with value := updateAnswer s.value questionId none,
                    isExplicitlyCompleted := false }, [])
    else
      match content.choices.get? choiceIndex.toNat with
      | none => .error "TypeError: choices index out of range"
      | some choice =>
        .ok ({ s with value := updateAnswer s.value questionId (some choice.id),
                      isExplicitlyCompleted := false }, [])

/-- `handleCompletionRequest` (QuestionnaireControl.ts):
`validationResult` is the per-turn outcome of evaluating the pluggable
`valid` prop (`none` = valid). -/
def handleCompletionRequest (validationResult : Option QValidationFailure)
    (s : QuestionnaireControlState) : QuestionnaireControlState × List QAct :=
  match validationResult with
  | none => ({ s with isExplicitlyCompleted := true }, [.completed])
  | some r => (s, [.completionRejected r.reasonCode r.renderedReason])

/-- `handleBareNoToCompletionQuestion` (QuestionnaireControl.ts). -/
def handleBareNoToCompletionQuestion (s : QuestionnaireControlState) :
    QuestionnaireControlState × List QAct :=
  ({ s with isExplicitlyCompleted := false, requireExplicitCompletion := true },
    [.acknowledgeNotComplete])

/-- Dispatch to the matched builtin handler of QuestionnaireControl. -/
def executeQHandler (content : QuestionnaireContent)
    (validationResult : Option QValidationFailure) (inv : QInvocation)
    (s : QuestionnaireControlState) :
    Except String (QuestionnaireControlState × List QAct) :=
  match inv with
  | .activate => .ok (handleActivate s)
  | .bareAnswerToAskedQuestion mappedValue =>
    handleBareAnswerToAskedQuestion content mappedValue s
  | .specificAnswerToAskedQuestion valueStr =>
    handleSpecificAnswerToAskedQuestion content valueStr s
  | .specificAnswerToSpecificQuestion target valueStr =>
    handleSpecificAnswerToSpecificQuestion content target valueStr s
  | .feedbackAnswerToSpecificQuestion target feedback =>
    handleFeedbackAnswerToSpecificQuestion content target feedback s
  | .specificAnswerByTouch questionId choiceIndex =>
    handleSpecificAnswerByTouch content questionId choiceIndex s
  | .completionRequestByVoice => .ok (handleCompletionRequest validationResult s)
  | .completionRequestByTouch => .ok (handleCompletionRequest validationResult s)
  | .bareYesToCompletionQuestion => .ok (handleCompletionRequest validationResult s)
  | .bareNoToCompletionQuestion => .ok (handleBareNoToCompletionQuestion s)

/-- `QuestionnaireControl.handle`: fetch the content (throws when it has
no choices), run the matched handler, clear `activeInitiative`, then
auto-complete when every question is answered and confirmation is not
required.  `confirmationRequired` is this turn's value of
`evaluateBooleanProp(this.props.dialog.confirmationRequired, input)`. -/
def qHandle (content : QuestionnaireContent)
    (validationResult : Option QValidationFailure) (confirmationRequired : Bool)
    (inv : QInvocation) (s : QuestionnaireControlState) :
    Except String (QuestionnaireControlState × List QAct) :=
  if content.choices.isEmpty then .error "props.questionnaireContent has no choices"
  else
    match executeQHandler content validationResult inv s with
    | .error e => .error e
    | .ok (s1, acts) =>
      let s2 := { s1 with activeInitiative := none }
      let isDone := (getFirstUnansweredQuestion content s2).isNone
      .ok (s2, acts ++ if isDone && !confirmationRequired then [.completed] else [])

/-! ### QuestionnaireControl: initiative phase -/

/-- `isActive` (QuestionnaireControl.ts).  The source's first condition is
`this.state.value === \x7b\x7d && !this.state.explicitlyActivated && required === false`;
in JavaScript, `===` against a fresh object literal is reference equality
and therefore always false, so the first branch can never be taken.  The
embedding mirrors that evaluated behavior with `valueIsEmptyObjectLiteral`. -/
def isActive (required : Bool) (s : QuestionnaireControlState) : Bool :=
  let valueIsEmptyObjectLiteral := false
  if valueIsEmptyObjectLiteral && ¬ s.explicitlyActivated && required = false then
    false
  else if s.isExplicitlyCompleted then false
  else true

/-- `wantsToAskLineItemQuestion` (QuestionnaireControl.ts). -/
def wantsToAskLineItemQuestion (content : QuestionnaireContent) (required : Bool)
    (s : QuestionnaireControlState) : Bool :=
  isActive required s && (getFirstUnansweredQuestion content s).isSome

/-- `askLineItemQuestion` (QuestionnaireControl.ts): focus the first
unanswered question and emit either an AskQuestionAct or, after a touch
answer, an ActiveAPLInitiative act
(`firstUnansweredQuestion!` is a TypeError when every question is
answered). -/
def askLineItemQuestion (content : QuestionnaireContent)
    (inputWasAnswerByTouch : Bool) (s : QuestionnaireControlState) :
    Except String (QuestionnaireControlState × List QAct) :=
  match getFirstUnansweredQuestion content s with
  | none => .error "TypeError: firstUnansweredQuestion is undefined"
  | some question =>
    let initiativeAct :=
      if inputWasAnswerByTouch then QAct.activeAPLInitiative
      else QAct.askQuestion question.id
    let actName :=
      if inputWasAnswerByTouch then activeAPLInitiativeActName else askQuestionActName
    .ok ({ s with focusQuestionId := some question.id,
                  activeInitiative := some actName }, [initiativeAct])

/-- `wantsToAskIfComplete` (QuestionnaireControl.ts). -/
def wantsToAskIfComplete (content : QuestionnaireContent) (required : Bool)
    (confirmationRequired : Bool) (s : QuestionnaireControlState) : Bool :=
  isActive required s && confirmationRequired
    && (getFirstUnansweredQuestion content s).isNone

/-- `askIfComplete` (QuestionnaireControl.ts): the softer
SuggestContinueAct when `requireExplicitCompletion` is set, else the
plain AskIfCompleteAct; either way it is recorded as `activeInitiative`. -/
def askIfComplete (s : QuestionnaireControlState) :
    QuestionnaireControlState × List QAct :=
  if s.requireExplicitCompletion then
    ({ s with activeInitiative := some suggestContinueActName }, [.suggestContinue])
  else
    ({ s with activeInitiative := some askIfCompleteActName }, [.askIfComplete])

/-- Guard of `isBareNoToCompletionQuestion` /
`isBareYesToCompletionQuestion` that inspects control state (the input
must additionally be a bare no / yes). -/
def isCompletionQuestionActiveGuard (s : QuestionnaireControlState) : Bool :=
  s.activeInitiative = some askIfCompleteActName

/-! ### Handler dispatch (canHandle) -/

/-- A registered input handler: a name and its guard over the pair of
control state and structured input (`ControlInputHandler` restricted to
the guard, which is all `canHandle` consults). -/
structure InputHandler (σ : Type) where
  name : String
  guardPasses : σ → Bool

/-- `QuestionnaireControl.canHandle`: evaluate every registered guard in
declared order, report a configuration defect when more than one passes
(the `log.error` call), and select the first match as `handleFunc`.
Returns the chosen handler (if any) and whether the defect was
reported. -/
def qCanHandle {σ : Type} (handlers : List (InputHandler σ)) (input : σ) :
    Option (InputHandler σ) × Bool :=
  let passing := handlers.filter (fun h => h.guardPasses input)
  (passing.head?, decide (1 < passing.length))

/-! ### Helper lemmas -/

theorem head?_filter_eq_find? {α : Type} (p : α → Bool) (l : List α) :
    (l.filter p).head? = l.find? p := by
  induction l with
  | nil => rfl
  | cons a t ih =>
    by_cases h : p a
    · simp [List.filter_cons, List.find?, h]
    · simp [List.filter_cons, List.find?, h, ih]

theorem getFirstUnansweredQuestion_isNone (content : QuestionnaireContent)
    (s : QuestionnaireControlState) :
    (getFirstUnansweredQuestion content s).isNone = allQuestionsAnswered content s := by
  unfold getFirstUnansweredQuestion allQuestionsAnswered
  generalize content.questions = l
  induction l with
  | nil => rfl
  | cons q t ih =>
    simp only [List.find?, List.all]
    cases hq : lookupAnswer s.value q.id <;> simp [hq, ih]

/-! ### Claim theorems -/

/-- C9: the active page is exactly the contiguous slice
`[cursor, cursor + pageSize)` of the candidate list; out-of-range slicing
silently yields a shorter or empty page, never an error and never
padding; an unset page cursor behaves as cursor 0; concretely, page size
3 over a five-element list yields the first three elements at cursor 0
and exactly the last element at cursor 4. -/
theorem getChoicesFromActivePage_slices (pageSize : Nat)
    (s : MultiValueListControlState) (allChoices : List String) :
    (∀ i : Nat,
      ((getChoicesFromActivePage pageSize s allChoices).1)[i]? =
        if i < pageSize then allChoices[s.spokenItemsPageIndex.getD 0 + i]? else none)
  ∧ ((getChoicesFromActivePage pageSize s allChoices).1).length =
      min pageSize (allChoices.length - s.spokenItemsPageIndex.getD 0)
  ∧ (getChoicesFromActivePage pageSize { s with spokenItemsPageIndex := none }
        allChoices).1 =
      (getChoicesFromActivePage pageSize { s with spokenItemsPageIndex := some 0 }
        allChoices).1
  ∧ (getChoicesFromActivePage 3 mvFreshState ["a", "b", "c", "d", "e"]).1 =
      ["a", "b", "c"]
  ∧ (getChoicesFromActivePage 3 { mvFreshState with spokenItemsPageIndex := some 4 }
        ["a", "b", "c", "d", "e"]).1 = ["e"] := by
  refine ⟨?_, ?_, rfl, rfl, rfl⟩
  · intro i
    cases h : s.spokenItemsPageIndex <;>
      simp [getChoicesFromActivePage, getPageIndex, h, List.getElem?_take,
        List.getElem?_drop]
  · cases h : s.spokenItemsPageIndex <;>
      simp [getChoicesFromActivePage, getPageIndex, h, List.length_take,
        List.length_drop]

/-- C6: handling a clear input does NOT complete without throwing on every
state: on the state in which no value list exists (the fresh state),
`handleClearValue` dereferences `this.state.value!` inside `getSlotIds`
and raises a TypeError instead of emitting a ValueClearedAct. -/
theorem clearValue_throws_on_missing_value_state :
    handleClearValue mvFreshState =
      .error "TypeError: this.state.value is undefined" := rfl

/-- C1: remove-with-value does NOT handle every control state: on the
state in which no value list exists (the fresh state), a removal request
dereferences `this.state.value!` and raises a TypeError instead of
emitting the invalid/not-found Act and re-triggering elicitation. -/
theorem removeWithValue_throws_on_missing_value_state :
    handleRemoveWithValue ⟨true, false, 3, ["X", "Y"], []⟩ ["Z"] mvFreshState =
      .error "TypeError: cannot read map of undefined state.value" := rfl

/-- C4: for a questionnaire control with `required = false` that has never
been started or touched (fresh state, one unanswered question), the
ask-next-question initiative DOES fire: `isActive`'s untouched-and-not-
required test compares `state.value` to a fresh object literal with `===`,
which is always false, so the control is considered active. -/
theorem askNextQuestion_fires_despite_not_required_untouched :
    wantsToAskLineItemQuestion
      ⟨[⟨"q1", ["builtin_it"], "Question one?", "one"⟩], [⟨"yes", "Y", "yes"⟩]⟩
      false qFreshState = true := rfl

/-- C7: handler selection is a deterministic function of state and input:
`canHandle` evaluates every registered guard in declared order, selects
exactly the first passing handler (`List.find?` over the declared list),
and reports the configuration defect precisely when more than one guard
passes. -/
theorem canHandle_selects_first_match_and_reports_defect {σ : Type}
    (handlers : List (InputHandler σ)) (input : σ) :
    (qCanHandle handlers input).1 = handlers.find? (fun h => h.guardPasses input)
  ∧ ((qCanHandle handlers input).2 = true ↔
      1 < (handlers.filter (fun h => h.guardPasses input)).length) := by
  constructor
  · show (List.filter _ handlers).head? = _
    exact head?_filter_eq_find? _ handlers
  · simp [qCanHandle]

/-- C2: holding a nonempty value with confirmation required and confirmed
not true, the initiative phase emits a ConfirmValueAct and records it as
`lastInitiative` with the held value ids; a subsequent bare affirmative
turn sets `confirmed = true` and emits a ValueConfirmedAct; a subsequent
bare negative turn leaves `confirmed` not-true and emits a
SuggestActionAct; `lastInitiative` is cleared in both cases. -/
theorem confirmation_roundtrip (props : MVProps) (s : MultiValueListControlState)
    (v : List MultiValueListStateValue)
    (hconf : props.confirmationRequired = true)
    (hval : s.value = some v) (hne : v ≠ [])
    (hunconfirmed : s.confirmed ≠ some true) :
    runInitiative props s =
      some (.ok
        ({ s with lastInitiative := some ⟨confirmValueActName, v.map (·.id)⟩ },
          [MVAct.confirmValue (v.map (·.id))]))
  ∧ handleConfirmationAffirmed
      { s with lastInitiative := some ⟨confirmValueActName, v.map (·.id)⟩ } =
      .ok ({ s with lastInitiative := none, confirmed := some true },
        [MVAct.valueConfirmed (v.map (·.id))])
  ∧ handleConfirmationDisaffirmed
      { s with lastInitiative := some ⟨confirmValueActName, v.map (·.id)⟩ } =
      ({ s with lastInitiative := none }, [MVAct.suggestAction])
  ∧ ({ s with lastInitiative := none } :
      MultiValueListControlState).confirmed ≠ some true := by
  have hwants : wantsToConfirmValue props s = true := by
    have hv : v.isEmpty = false := by
      cases v with
      | nil => exact absurd rfl hne
      | cons a t => rfl
    simp [wantsToConfirmValue, hconf, hval, hv, hunconfirmed]
  refine ⟨?_, rfl, rfl, hunconfirmed⟩
  simp [runInitiative, canTakeInitiative, hwants, confirmValue, getSlotIds, hval]

/-- Witness for `confirmation_roundtrip` at a concrete state holding the
single value V. -/
theorem confirmation_roundtrip_witness :
    runInitiative ⟨true, true, 3, ["V"], []⟩
        { mvFreshState with value := some [⟨"V", true⟩] } =
      some (.ok
        (⟨some [⟨"V", true⟩], none, none, none,
            some ⟨confirmValueActName, ["V"]⟩, none⟩,
          [MVAct.confirmValue ["V"]])) :=
  (confirmation_roundtrip ⟨true, true, 3, ["V"], []⟩
    { mvFreshState with value := some [⟨"V", true⟩] } [⟨"V", true⟩]
    rfl rfl (by decide) (by decide)).1

/-- C8: a bare no while the ask-if-complete question is the active
initiative acknowledges, clears `isExplicitlyCompleted`, and sets
`requireExplicitCompletion`; afterwards, whenever the ask-if-complete
initiative fires with `requireExplicitCompletion` set, it emits the
softer SuggestContinueAct instead of the plain AskIfCompleteAct. -/
theorem bareNo_sets_requireExplicitCompletion_and_suggestContinue
    (content : QuestionnaireContent) (vr : Option QValidationFailure)
    (s s' : QuestionnaireControlState) (acts : List QAct)
    (h : qHandle content vr true .bareNoToCompletionQuestion s = .ok (s', acts)) :
    QAct.acknowledgeNotComplete ∈ acts
  ∧ s'.isExplicitlyCompleted = false
  ∧ s'.requireExplicitCompletion = true
  ∧ (∀ s₂ : QuestionnaireControlState, s₂.requireExplicitCompletion = true →
      askIfComplete s₂ =
        ({ s₂ with activeInitiative := some suggestContinueActName },
          [QAct.suggestContinue])) := by
  by_cases hc : content.choices.isEmpty
  · simp [qHandle, hc] at h
  · unfold qHandle at h
    rw [if_neg hc] at h
    simp only [executeQHandler, handleBareNoToCompletionQuestion,
      Except.ok.injEq, Prod.mk.injEq] at h
    obtain ⟨hs', hacts⟩ := h
    subst hs' hacts
    refine ⟨by simp, rfl, rfl, ?_⟩
    intro s₂ h₂
    simp [askIfComplete, h₂]

/-- Witness for `bareNo_sets_requireExplicitCompletion_and_suggestContinue`
on a concrete one-question questionnaire. -/
theorem bareNo_suggestContinue_witness :
    QAct.acknowledgeNotComplete ∈ [QAct.acknowledgeNotComplete] :=
  (bareNo_sets_requireExplicitCompletion_and_suggestContinue
    ⟨[⟨"q1", ["builtin_it"], "Question one?", "one"⟩], [⟨"yes", "Y", "yes"⟩]⟩
    none qFreshState
    { qFreshState with requireExplicitCompletion := true }
    [QAct.acknowledgeNotComplete] rfl).1

/-- C10 counterexample: a handled remove turn that leaves the held value
list present but empty.  `handle` does overwrite `required` to `true`,
yet the control takes no initiative to elicit, because
`wantsToElicitValue` tests `state.value === undefined` and an empty held
list is not `undefined`. -/
theorem handle_does_not_elicit_on_empty_held_list :
    mvHandle ⟨false, false, 3, ["X", "Y"], []⟩ (.removeWithValue ["X"])
        { mvFreshState with value := some [⟨"X", true⟩] } =
      .ok (⟨true, false, 3, ["X", "Y"], []⟩,
        { mvFreshState with value := some ([] : List MultiValueListStateValue) },
        [MVAct.valueRemoved ["X"]])
  ∧ canTakeInitiative ⟨true, false, 3, ["X", "Y"], []⟩
      { mvFreshState with value := some ([] : List MultiValueListStateValue) } =
      none := ⟨rfl, rfl⟩

/-- C10 (amended): every call to `handle` that executes a matched handler
first overwrites the configured `required` prop to `true`; consequently,
after any handled input the control will take initiative to elicit a
value whenever its held value is `undefined` (no value list present) —
though not when a present-but-empty value list is held. -/
theorem handle_overwrites_required_and_elicits_when_value_undefined
    (props : MVProps) (inv : MVInvocation) (s : MultiValueListControlState)
    (props' : MVProps) (s' : MultiValueListControlState) (acts : List MVAct)
    (h : mvHandle props inv s = .ok (props', s', acts)) :
    props'.required = true
  ∧ (∀ s₂ : MultiValueListControlState, s₂.value = none →
      canTakeInitiative props' s₂ = some .elicit) := by
  have hprops : props' = { props with required := true } := by
    unfold mvHandle at h
    cases hex : executeMVHandler { props with required := true } inv s with
    | error e => rw [hex] at h; simp at h
    | ok p =>
      obtain ⟨s1, acts1⟩ := p
      rw [hex] at h
      by_cases hinit : acts1.any MVAct.isInitiativeAct
      · simp [hinit, Prod.mk.injEq] at h
        exact h.1.symm
      · cases hrun : runInitiative { props with required := true } s1 with
        | none =>
          simp [hinit, hrun, Prod.mk.injEq] at h
          exact h.1.symm
        | some r =>
          cases r with
          | error e => simp [hinit, hrun] at h
          | ok q =>
            obtain ⟨s2, iacts⟩ := q
            simp [hinit, hrun, Prod.mk.injEq] at h
            exact h.1.symm
  subst hprops
  refine ⟨rfl, ?_⟩
  intro s₂ h₂
  simp [canTakeInitiative, wantsToConfirmValue, wantsToElicitValue, h₂]

/-- Witness for
`handle_overwrites_required_and_elicits_when_value_undefined` at a
concrete clear turn. -/
theorem handle_overwrites_required_witness :
    (MVProps.mk true false 2 ["A", "B", "C"] []).required = true :=
  (handle_overwrites_required_and_elicits_when_value_undefined
    ⟨false, false, 2, ["A", "B", "C"], []⟩ .clearValue
    { mvFreshState with value := some [⟨"X", true⟩] }
    ⟨true, false, 2, ["A", "B", "C"], []⟩
    ⟨none, some actionAdd, some 0, none, none, none⟩
    [MVAct.valueCleared ["X"], MVAct.requestValueByList ["A", "B"] ["A", "B", "C"]]
    rfl).1

/-- A proposed value is rejected by the turn's validation outcome when the
structured failure names its id among `invalidValues`. -/
def isRejectedBy (vr : Option MultiValueValidationResult)
    (v : MultiValueListStateValue) : Bool :=
  match vr with
  | none => false
  | some r => r.invalidValues.contains v.id

theorem value_after_foldl_addValue (s : MultiValueListControlState)
    (vs : List MultiValueListStateValue) :
    ((vs.foldl addValue s).value.getD []) = s.value.getD [] ++ vs := by
  induction vs generalizing s with
  | nil => simp
  | cons v t ih =>
    rw [List.foldl_cons, ih]
    cases hv : s.value <;> simp [addValue, hv]

/-- C3: every proposed value not named invalid by the pluggable validation
is appended to held state in order; a ValueAddedAct listing exactly the
accepted value ids is emitted iff at least one value was accepted; an
InvalidValueAct listing exactly the validation failure's invalid ids with
its rendered reason is emitted iff at least one proposed value was
rejected (assuming the validation contract: a failure names at least one
invalid id and only ids of proposed values); the lists are never merged
or swapped. -/
theorem addWithValue_accept_reject_split (props : MVProps)
    (proposed : List MultiValueListStateValue) (s : MultiValueListControlState)
    (vr : Option MultiValueValidationResult)
    (hvr : validate props.validation proposed = vr)
    (hcontract : ∀ r, vr = some r →
      r.invalidValues ≠ [] ∧ ∀ x ∈ r.invalidValues, x ∈ proposed.map (·.id)) :
    (handleAddWithValue props proposed s).1.value.getD [] =
        s.value.getD [] ++ proposed.filter (fun v => ! isRejectedBy vr v)
  ∧ (∀ ids, MVAct.valueAdded ids ∈ (handleAddWithValue props proposed s).2 ↔
      (ids = (proposed.filter (fun v => ! isRejectedBy vr v)).map (·.id)
        ∧ proposed.filter (fun v => ! isRejectedBy vr v) ≠ []))
  ∧ (∀ l reason,
      MVAct.invalidValue l reason ∈ (handleAddWithValue props proposed s).2 ↔
        ∃ r, vr = some r ∧ l = r.invalidValues ∧ reason = some r.renderedReason)
  ∧ ((∃ l reason,
        MVAct.invalidValue l reason ∈ (handleAddWithValue props proposed s).2) ↔
      ∃ v ∈ proposed, isRejectedBy vr v = true) := by
  subst hvr
  cases hval : validate props.validation proposed with
  | none =>
    have hkeep : proposed.filter (fun v => ! isRejectedBy none v) = proposed := by
      simp [isRejectedBy]
    refine ⟨?_, ?_, ?_, ?_⟩
    · rw [hkeep]
      simp only [handleAddWithValue, hval]
      exact value_after_foldl_addValue s proposed
    · intro ids
      rw [hkeep]
      simp only [handleAddWithValue, hval]
      by_cases hp : proposed = []
      · simp [hp]
      · have hne : (proposed.map (·.id)).isEmpty = false := by
          simp [List.isEmpty_iff, hp]
        simp [hne, hp]
    · intro l reason
      simp only [handleAddWithValue, hval]
      by_cases hp : (proposed.map (·.id)).isEmpty <;> simp [hp]
    · simp only [handleAddWithValue, hval]
      constructor
      · rintro ⟨l, reason, hmem⟩
        by_cases hp : (proposed.map (·.id)).isEmpty <;> simp [hp] at hmem
      · rintro ⟨v, _, hrej⟩
        simp [isRejectedBy] at hrej
  | some r =>
    obtain ⟨hne, hsub⟩ := hcontract r hval
    have hkeep : proposed.filter (fun v => ! isRejectedBy (some r) v) =
        proposed.filter (fun v => ! r.invalidValues.contains v.id) := by
      simp [isRejectedBy]
    refine ⟨?_, ?_, ?_, ?_⟩
    · rw [hkeep]
      simp only [handleAddWithValue, hval]
      exact value_after_foldl_addValue s _
    · intro ids
      rw [hkeep]
      simp only [handleAddWithValue, hval]
      generalize hk : proposed.filter (fun v => ! r.invalidValues.contains v.id) = kept
      by_cases hp : kept = []
      · simp [hp]
      · have hnemp : (kept.map (·.id)).isEmpty = false := by
          simp [List.isEmpty_iff, hp]
        simp [hnemp, hp]
    · intro l reason
      simp only [handleAddWithValue, hval]
      by_cases hp :
          ((proposed.filter (fun v => ! r.invalidValues.contains v.id)).map
            (·.id)).isEmpty <;>
        simp [hp]
    · constructor
      · intro _
        obtain ⟨x, hx⟩ : ∃ x, x ∈ r.invalidValues := by
          cases hinv : r.invalidValues with
          | nil => exact absurd hinv hne
          | cons a t => exact ⟨a, by simp [hinv]⟩
        obtain ⟨v, hv, hvid⟩ := List.mem_map.mp (hsub x hx)
        exact ⟨v, hv, by simp [isRejectedBy, hvid ▸ hx]⟩
      · intro _
        refine ⟨r.invalidValues, some r.renderedReason, ?_⟩
        simp only [handleAddWithValue, hval]
        by_cases hp :
            ((proposed.filter (fun v => ! r.invalidValues.contains v.id)).map
              (·.id)).isEmpty <;>
          simp [hp]

/-- Witness for `addWithValue_accept_reject_split`: candidate values
`[A valid, B invalid]` yield an added act listing only A and an invalid
act listing only B. -/
theorem addWithValue_split_witness :
    MVAct.valueAdded ["A"] ∈
        (handleAddWithValue
          ⟨true, false, 3, ["A"],
            [fun values =>
              if values.any (fun v => v.id = "B") then
                some ⟨none, "item not in list", ["B"]⟩
              else none]⟩
          [⟨"A", true⟩, ⟨"B", true⟩] mvFreshState).2 ↔
      (["A"] =
          ([⟨"A", true⟩, ⟨"B", true⟩].filter
            (fun v => ! isRejectedBy (some ⟨none, "item not in list", ["B"]⟩) v)).map
            (·.id)
        ∧ [⟨"A", true⟩, ⟨"B", true⟩].filter
            (fun v => ! isRejectedBy (some ⟨none, "item not in list", ["B"]⟩) v) ≠ []) :=
  ((addWithValue_accept_reject_split
    ⟨true, false, 3, ["A"],
      [fun values =>
        if values.any (fun v => v.id = "B") then
          some ⟨none, "item not in list", ["B"]⟩
        else none]⟩
    [⟨"A", true⟩, ⟨"B", true⟩] mvFreshState
    (some ⟨none, "item not in list", ["B"]⟩) (by rfl)
    (by intro r hr; simp at hr; subst hr; exact ⟨by simp, by simp⟩)).2.1) ["A"]

theorem executeQHandler_completion_shape (content : QuestionnaireContent)
    (vr : Option QValidationFailure) (inv : QInvocation)
    (s s1 : QuestionnaireControlState) (hacts : List QAct)
    (hex : executeQHandler content vr inv s = .ok (s1, hacts)) :
    (inv.isCompletionRequest = true →
        ((vr = none → hacts = [QAct.completed]
            ∧ s1 = { s with isExplicitlyCompleted := true })
          ∧ (∀ r, vr = some r →
              hacts = [QAct.completionRejected r.reasonCode r.renderedReason]
                ∧ s1 = s)))
  ∧ (inv.isCompletionRequest = false → QAct.completed ∉ hacts) := by
  cases inv <;>
    simp only [executeQHandler, handleActivate, handleBareAnswerToAskedQuestion,
      handleSpecificAnswerToAskedQuestion, handleSpecificAnswerToSpecificQuestion,
      handleFeedbackAnswerToSpecificQuestion, handleSpecificAnswerByTouch,
      handleCompletionRequest, handleBareNoToCompletionQuestion,
      QInvocation.isCompletionRequest] at hex ⊢ <;>
    ((repeat' split at hex) <;> simp_all)
  all_goals
    obtain ⟨hs1, hacts1⟩ := hex
    subst hacts1
    simp

theorem completed_mem_auto_tail (content : QuestionnaireContent)
    (s2 : QuestionnaireControlState) (confirmationRequired : Bool) :
    QAct.completed ∈
        (if (getFirstUnansweredQuestion content s2).isNone && !confirmationRequired
          then [QAct.completed] else []) ↔
      (allQuestionsAnswered content s2 = true ∧ confirmationRequired = false) := by
  cases hcr : confirmationRequired <;>
    by_cases hd : allQuestionsAnswered content s2 <;>
      simp [getFirstUnansweredQuestion_isNone, hd, hcr]

/-- C5: a CompletedAct is emitted in a turn iff either (a) an explicit
completion request (voice, touch, or bare yes to the completion question)
was handled and the pluggable validity check passed — in which case
`isExplicitlyCompleted` is set — or (b) after handling, every question is
answered and `confirmationRequired` is false.  When the validity check
fails, a completion-rejected Act carrying the validation's reported
reason is emitted instead and `isExplicitlyCompleted` is unchanged. -/
theorem completedAct_iff_explicit_or_auto (content : QuestionnaireContent)
    (vr : Option QValidationFailure) (confirmationRequired : Bool)
    (inv : QInvocation) (s s' : QuestionnaireControlState) (acts : List QAct)
    (h : qHandle content vr confirmationRequired inv s = .ok (s', acts)) :
    (QAct.completed ∈ acts ↔
      ((inv.isCompletionRequest = true ∧ vr = none)
        ∨ (allQuestionsAnswered content s' = true ∧ confirmationRequired = false)))
  ∧ (inv.isCompletionRequest = true → vr = none → s'.isExplicitlyCompleted = true)
  ∧ (∀ r, inv.isCompletionRequest = true → vr = some r →
      QAct.completionRejected r.reasonCode r.renderedReason ∈ acts
        ∧ s'.isExplicitlyCompleted = s.isExplicitlyCompleted) := by
  unfold qHandle at h
  by_cases hc : content.choices.isEmpty
  · rw [if_pos hc] at h; simp at h
  · rw [if_neg hc] at h
    cases hex : executeQHandler content vr inv s with
    | error e => rw [hex] at h; simp at h
    | ok p =>
      obtain ⟨s1, hacts⟩ := p
      rw [hex] at h
      simp only [Except.ok.injEq, Prod.mk.injEq] at h
      obtain ⟨hs', hactseq⟩ := h
      subst hs' hactseq
      obtain ⟨hcomp, hnotcomp⟩ :=
        executeQHandler_completion_shape content vr inv s s1 hacts hex
      have hiff : QAct.completed ∈ hacts ↔
          (inv.isCompletionRequest = true ∧ vr = none) := by
        by_cases hreq : inv.isCompletionRequest
        · obtain ⟨hnone, hsome⟩ := hcomp hreq
          cases vr with
          | none =>
            obtain ⟨ha, _⟩ := hnone rfl
            simp [ha, hreq]
          | some r0 =>
            obtain ⟨ha, _⟩ := hsome r0 rfl
            simp [ha, hreq]
        · have hnot := hnotcomp (by simpa using hreq)
          constructor
          · intro hmem
            exact absurd hmem hnot
          · rintro ⟨hfalse, _⟩
            exact absurd hfalse (by simpa using hreq)
      refine ⟨?_, ?_, ?_⟩
      · rw [List.mem_append, hiff, completed_mem_auto_tail]
      · intro hreq hvr
        obtain ⟨_, hs1⟩ := (hcomp hreq).1 hvr
        rw [hs1]
      · intro r hreq hvr
        obtain ⟨ha, hs1⟩ := (hcomp hreq).2 r hvr
        constructor
        · rw [List.mem_append, ha]
          exact Or.inl (by simp)
        · rw [hs1]

/-- Witness for `completedAct_iff_explicit_or_auto`: an explicit
completion request by voice with a passing validity check sets
`isExplicitlyCompleted`. -/
theorem completedAct_witness :
    (⟨[], none, none, true, false, false⟩ :
        QuestionnaireControlState).isExplicitlyCompleted = true :=
  (completedAct_iff_explicit_or_auto
    ⟨[⟨"q1", ["builtin_it"], "Question one?", "one"⟩], [⟨"yes", "Y", "yes"⟩]⟩
    none true .completionRequestByVoice qFreshState
    ⟨[], none, none, true, false, false⟩ [QAct.completed] rfl).2.1 rfl rfl

end AskSdkControls
